import Mathlib

/-!
Verification of the A2UI sample agents (restaurant finder and real-estate
agent): a shallow embedding of the streaming validate/retry loop in
`RestaurantAgent.stream` and `RealEstateAgent.stream`, of the delimiter
splitter and schema-validation pipeline, and of the permissive
bracket-scanning JSON extractor in `RealEstateAgentExecutor.execute`.

Text is modelled as `List Char`.  The external collaborators (the LLM
runner, the JSON parser `json.loads` and the JSON-Schema engine
`jsonschema.validate`) are modelled as parameters: the runner as a
function from attempt number to the list of events it yields, the parser
and validator as Boolean oracles on the candidate JSON text.
-/

/-- Python `str.strip()` whitespace characters (the ASCII ones). -/
def isPyWs (c : Char) : Bool :=
  c = ' ' || c = '\t' || c = '\n' || c = '\x0d' || c = '\x0b' || c = '\x0c'

/-- Drop the leading characters satisfying `p` (Python `lstrip` with a char set). -/
def lstripSet (p : Char → Bool) : List Char → List Char
  | [] => []
  | c :: rest => if p c then lstripSet p rest else c :: rest

/-- Drop the trailing characters satisfying `p` (Python `rstrip` with a char set). -/
def rstripSet (p : Char → Bool) (s : List Char) : List Char :=
  (lstripSet p s.reverse).reverse

/-- Python `str.strip()`. -/
def stripWs (s : List Char) : List Char :=
  rstripSet isPyWs (lstripSet isPyWs s)

/-- Does `d` occur as a prefix of `s`? -/
def headMatches : List Char → List Char → Bool
  | [], _ => true
  | _ :: _, [] => false
  | d :: ds, c :: cs => d = c && headMatches ds cs

/-- Python `s.split(d, 1)` combined with the `d in s` test: `none` when the
delimiter does not occur, otherwise the text before the first occurrence
and the text after it. -/
def splitFirst (d : List Char) : List Char → Option (List Char × List Char)
  | [] => if headMatches d [] then some ([], []) else none
  | c :: rest =>
    if headMatches d (c :: rest) then some ([], (c :: rest).drop d.length)
    else (splitFirst d rest).map (fun pr => (c :: pr.1, pr.2))

/-- Does the delimiter occur in the text (Python `d in s`)? -/
def containsSub (d s : List Char) : Bool :=
  (splitFirst d s).isSome

/-- Python `"\n".join`. -/
def joinNL : List (List Char) → List Char
  | [] => []
  | [t] => t
  | t :: u :: ts => t ++ '\n' :: joinNL (u :: ts)

/-- One event yielded by the ADK runner: whether `event.is_final_response()`
holds, and the texts of `event.content.parts` (`[]` models a missing or
empty `content`/`parts`; an empty text models a falsy `part.text`). -/
structure Event where
  isFinal : Bool
  parts : List (List Char)
deriving DecidableEq

/-- One item yielded by an agent's `stream` generator: a progress
notification (`is_task_complete=False`, with an `updates` message) or the
terminal item (`is_task_complete=True`, with `content` text). -/
inductive Item where
  | progress (msg : List Char)
  | terminal (content : List Char)
deriving DecidableEq

/-- Every item of the list is a progress notification. -/
def allProgress (l : List Item) : Prop :=
  ∀ x ∈ l, ∃ m, x = Item.progress m

/-- The configuration of an agent object: `self.use_ui`, whether
`self.a2ui_schema_object` was loaded (`True` = loaded, `False` = `None`),
and the external JSON-parse and schema-validation oracles. -/
structure AgentConfig where
  useUi : Bool
  schemaLoaded : Bool
  parseOk : List Char → Bool
  schemaOk : List Char → Bool

/-- The delimiter literal `---a2ui_JSON---`. -/
def delimiter : List Char := "---a2ui_JSON---".toList

/-- The restaurant agent's processing message. -/
def processingMsgRestaurant : List Char :=
  "Finding restaurants that match your criteria...".toList

/-- The restaurant agent's fixed internal-configuration-error message. -/
def configErrorMsg : List Char :=
  "I'm sorry, I'm facing an internal configuration error with my UI components. Please contact support.".toList

/-- The restaurant agent's apology when the runner returns no final response
and retries are exhausted. -/
def apologyNoResponse : List Char :=
  "I'm sorry, I encountered an error and couldn't process your request.".toList

/-- The restaurant agent's apology yielded after the retry loop exhausts. -/
def apologyExhausted : List Char :=
  "I'm sorry, I'm having trouble generating the interface for that request right now. Please try again in a moment.".toList

/-- The real-estate agent's processing message. -/
def processingMsgRealEstate : List Char :=
  "Searching for the perfect properties for you...".toList

/-- The real-estate agent's apology yielded after the retry loop exhausts. -/
def apologyRealEstate : List Char :=
  "I'm sorry, I couldn't find any properties matching that query.".toList

/-- `max_retries = 1  # Total 2 attempts` in both agents. -/
def maxRetries : Nat := 1

/-- The text `RestaurantAgent.stream` collects from a final event:
requires `event.content.parts` non-empty and `parts[0].text` truthy, then
joins the truthy part texts with a newline. -/
def finalEventText (e : Event) : Option (List Char) :=
  match e.parts with
  | [] => none
  | p :: _ =>
    if p = [] then none
    else some (joinNL (e.parts.filter (fun q => !q.isEmpty)))

/-- One pass of `RestaurantAgent.stream`'s inner `async for` loop over the
runner's events: a progress item per non-final event, stopping at the first
final event and extracting its text. -/
def runAttempt (msg : List Char) : List Event → List Item × Option (List Char)
  | [] => ([], none)
  | e :: rest =>
    if e.isFinal then ([], finalEventText e)
    else
      let r := runAttempt msg rest
      (Item.progress msg :: r.1, r.2)

/-- The text of the first final event of the runner's event list, as
`RestaurantAgent.stream` collects it (`None` when no final event carries
text). -/
def finalJoinedText : List Event → Option (List Char)
  | [] => none
  | e :: rest => if e.isFinal then finalEventText e else finalJoinedText rest

/-- The outcome of the restaurant agent's UI validation pipeline
(`try` block at `agent.py:211-247`). -/
inductive ValidationOutcome where
  | ok
  | missingDelimiter
  | emptyPayload
  | emptyCleaned
  | malformedJson
  | schemaViolation
deriving DecidableEq

/-- Characters stripped from the left by `lstrip("```json")`: Python strips
a character SET, not the literal prefix. -/
def fenceLeadChars (c : Char) : Bool :=
  c = '`' || c = 'j' || c = 's' || c = 'o' || c = 'n'

/-- Characters stripped from the right by `rstrip("```")`. -/
def fenceTrailChars (c : Char) : Bool := c = '`'

/-- `json_string.strip().lstrip("```json").rstrip("```").strip()`. -/
def cleanFence (s : List Char) : List Char :=
  stripWs (rstripSet fenceTrailChars (lstripSet fenceLeadChars (stripWs s)))

/-- The restaurant agent's UI validation pipeline on a final response text:
delimiter presence, non-empty JSON suffix, code-fence cleaning, JSON parse
(`json.loads`, oracle `parseOk`) and schema validation
(`jsonschema.validate` against the array-wrapped schema, oracle `schemaOk`). -/
def validateUi (parseOk schemaOk : List Char → Bool) (s : List Char) : ValidationOutcome :=
  match splitFirst delimiter s with
  | none => ValidationOutcome.missingDelimiter
  | some pr =>
    if stripWs pr.2 = [] then ValidationOutcome.emptyPayload
    else
      let cleaned := cleanFence pr.2
      if cleaned = [] then ValidationOutcome.emptyCleaned
      else if parseOk cleaned then
        if schemaOk cleaned then ValidationOutcome.ok else ValidationOutcome.schemaViolation
      else ValidationOutcome.malformedJson

/-- `is_valid` for one collected response in `RestaurantAgent.stream`: in
UI mode the validation pipeline must succeed; otherwise text is always
valid. -/
def isValidRest (cfg : AgentConfig) (s : List Char) : Bool :=
  if cfg.useUi then decide (validateUi cfg.parseOk cfg.schemaOk s = ValidationOutcome.ok)
  else true

/-- The `while attempt <= max_retries` loop of `RestaurantAgent.stream`.
`rem` is the number of loop iterations the guard still allows
(`max_retries + 1 - attempt`); `attempt` numbers the runner invocation and
indexes the event oracle `ev`.  Returns the yielded items and the number of
runner invocations. -/
def restStream (cfg : AgentConfig) (ev : Nat → List Event) : Nat → Nat → List Item × Nat
  | 0, _ => ([Item.terminal apologyExhausted], 0)
  | rem + 1, attempt =>
    let pr := runAttempt processingMsgRestaurant (ev attempt)
    match pr.2 with
    | none =>
      match rem with
      | r + 1 =>
        let next := restStream cfg ev (r + 1) (attempt + 1)
        (pr.1 ++ next.1, next.2 + 1)
      | 0 =>
        if isValidRest cfg apologyNoResponse then
          (pr.1 ++ [Item.terminal apologyNoResponse], 1)
        else
          let next := restStream cfg ev 0 (attempt + 1)
          (pr.1 ++ next.1, next.2 + 1)
    | some r =>
      if isValidRest cfg r then (pr.1 ++ [Item.terminal r], 1)
      else
        let next := restStream cfg ev rem (attempt + 1)
        (pr.1 ++ next.1, next.2 + 1)

/-- The items yielded by `RestaurantAgent.stream`: the configuration-error
refusal when UI mode is on and the schema failed to load, otherwise the
retry loop. -/
def restaurantStream (cfg : AgentConfig) (ev : Nat → List Event) : List Item :=
  if cfg.useUi && !cfg.schemaLoaded then [Item.terminal configErrorMsg]
  else (restStream cfg ev (maxRetries + 1) 1).1

/-- The number of runner invocations a call to `RestaurantAgent.stream`
makes. -/
def restaurantInvocations (cfg : AgentConfig) (ev : Nat → List Event) : Nat :=
  if cfg.useUi && !cfg.schemaLoaded then 0
  else (restStream cfg ev (maxRetries + 1) 1).2

/-- One pass of `RealEstateAgent.stream`'s inner `async for` loop: the
first text-bearing event (final or not) supplies `final_response_content`;
a progress item is yielded per non-final event; the loop stops at the first
final event. -/
def reAttempt (msg : List Char) : List Event → Option (List Char) → List Item × Option (List Char)
  | [], acc => ([], acc)
  | e :: rest, acc =>
    let acc' :=
      match acc with
      | some t => some t
      | none =>
        let texts := e.parts.filter (fun q => !q.isEmpty)
        if e.parts ≠ [] ∧ texts ≠ [] then some (joinNL texts) else none
    if e.isFinal then ([], acc')
    else
      let r := reAttempt msg rest acc'
      (Item.progress msg :: r.1, r.2)

/-- The text `RealEstateAgent.stream` collects on one attempt: the joined
truthy part texts of the first text-bearing event, scanning only up to and
including the first final event (the loop stops consuming there). -/
def collectedText : List Event → Option (List Char)
  | [] => none
  | e :: rest =>
    let texts := e.parts.filter (fun q => !q.isEmpty)
    let here := if e.parts ≠ [] ∧ texts ≠ [] then some (joinNL texts) else none
    match here with
    | some t => some t
    | none => if e.isFinal then none else collectedText rest

/-- The `while attempt <= max_retries` loop of `RealEstateAgent.stream`:
no configuration check, no validation, terminal success as soon as a
truthy text was collected. -/
def reStream (ev : Nat → List Event) : Nat → Nat → List Item × Nat
  | 0, _ => ([Item.terminal apologyRealEstate], 0)
  | rem + 1, attempt =>
    let pr := reAttempt processingMsgRealEstate (ev attempt) none
    match pr.2 with
    | some t =>
      if t ≠ [] then (pr.1 ++ [Item.terminal t], 1)
      else
        let next := reStream ev rem (attempt + 1)
        (pr.1 ++ next.1, next.2 + 1)
    | none =>
      let next := reStream ev rem (attempt + 1)
      (pr.1 ++ next.1, next.2 + 1)

/-- The items yielded by `RealEstateAgent.stream`.  The method reads none
of `self.use_ui`, `self.a2ui_schema_object`, the JSON parser or the schema
validator, so the configuration argument is unused. -/
def realEstateStream (_cfg : AgentConfig) (ev : Nat → List Event) : List Item :=
  (reStream ev (maxRetries + 1) 1).1

/-- The number of runner invocations a call to `RealEstateAgent.stream`
makes. -/
def realEstateInvocations (_cfg : AgentConfig) (ev : Nat → List Event) : Nat :=
  (reStream ev (maxRetries + 1) 1).2

/-- Index of the first occurrence of `c` (Python `str.find`, as an option
instead of `-1`). -/
def findChar (c : Char) : List Char → Option Nat
  | [] => none
  | x :: rest => if x = c then some 0 else (findChar c rest).map (· + 1)

/-- Index of the last occurrence of `c` (Python `str.rfind`, as an option
instead of `-1`). -/
def rfindChar (c : Char) : List Char → Option Nat
  | [] => none
  | x :: rest =>
    match rfindChar c rest with
    | some i => some (i + 1)
    | none => if x = c then some 0 else none

/-- `min([json_string_cleaned.find(c) for c in '[{' if ... != -1] or [0])`:
the earliest opening bracket or brace, defaulting to `0`. -/
def firstItem (s : List Char) : Nat :=
  match findChar '[' s, findChar '{' s with
  | some i, some j => min i j
  | some i, none => i
  | none, some j => j
  | none, none => 0

/-- `max([json_string_cleaned.rfind(c) for c in ']}' if ... != -1] or
[len(json_string_cleaned)])`: the latest closing bracket or brace,
defaulting to the string's length. -/
def lastItem (s : List Char) : Nat :=
  match rfindChar ']' s, rfindChar '}' s with
  | some i, some j => max i j
  | some i, none => i
  | none, some j => j
  | none, none => s.length

/-- `json_string_cleaned[first_item:last_item+1]` (Python slicing clamps,
as `List.take`/`List.drop` do). -/
def bracketSlice (s : List Char) : List Char :=
  (s.take (lastItem s + 1)).drop (firstItem s)

/-- A parsed JSON value, as far as the executor inspects it: a list of
messages or any other single value. -/
inductive PyJson where
  | arr (items : List PyJson)
  | atom

/-- One output part the executor appends: a plain text part or an A2UI
data part built by `create_a2ui_part`. -/
inductive ExecPart where
  | text (t : List Char)
  | a2ui (j : PyJson)

/-- The permissive extractor of `RealEstateAgentExecutor.execute`
(the outer `try` body, lines 57-85): strip the JSON suffix, slice from the
first opening bracket/brace to the last closing bracket/brace, parse
(`json.loads`, oracle `parse`), and build one A2UI part per list element
(or one part for a non-list value).  On a parse failure the fallback block
builds nothing and re-raises, so the error propagates. -/
def extractA2ui (parse : List Char → Option PyJson) (jsonString : List Char) :
    Except Unit (List ExecPart) :=
  let cleaned := bracketSlice (stripWs jsonString)
  match parse cleaned with
  | some (PyJson.arr items) => Except.ok (items.map ExecPart.a2ui)
  | some j => Except.ok [ExecPart.a2ui j]
  | none => Except.error ()

/-- The executor's handling of one terminal content string: split on the
delimiter when present; on extractor failure the `except` handler
substitutes the raw JSON suffix as a text part. -/
def handleContent (parse : List Char → Option PyJson) (content : List Char) :
    List ExecPart :=
  match splitFirst delimiter content with
  | some pr =>
    let pre := if stripWs pr.1 ≠ [] then [ExecPart.text (stripWs pr.1)] else []
    match extractA2ui parse pr.2 with
    | Except.ok parts => pre ++ parts
    | Except.error _ => pre ++ [ExecPart.text pr.2]
  | none => [ExecPart.text (stripWs content)]

theorem allProgress_nil : allProgress [] := by
  intro x hx
  cases hx

theorem allProgress_append {l₁ l₂ : List Item}
    (h₁ : allProgress l₁) (h₂ : allProgress l₂) : allProgress (l₁ ++ l₂) := by
  intro x hx
  rcases List.mem_append.mp hx with h | h
  · exact h₁ x h
  · exact h₂ x h

theorem runAttempt_progress (msg : List Char) :
    ∀ evs : List Event, allProgress (runAttempt msg evs).1 := by
  intro evs
  induction evs with
  | nil => exact allProgress_nil
  | cons e rest ih =>
    intro x hx
    simp only [runAttempt] at hx
    by_cases hf : e.isFinal = true
    · simp [hf] at hx
    · simp only [hf, if_neg, Bool.false_eq_true, if_false] at hx
      rcases List.mem_cons.mp hx with h | h
      · exact ⟨msg, h⟩
      · exact ih x h

theorem reAttempt_progress (msg : List Char) :
    ∀ (evs : List Event) (acc : Option (List Char)),
      allProgress (reAttempt msg evs acc).1 := by
  intro evs
  induction evs with
  | nil => intro acc; exact allProgress_nil
  | cons e rest ih =>
    intro acc x hx
    simp only [reAttempt] at hx
    by_cases hf : e.isFinal = true
    · simp [hf] at hx
    · simp only [hf, Bool.false_eq_true, if_false] at hx
      rcases List.mem_cons.mp hx with h | h
      · exact ⟨msg, h⟩
      · exact ih _ x h

theorem runAttempt_snd (msg : List Char) :
    ∀ evs : List Event, (runAttempt msg evs).2 = finalJoinedText evs := by
  intro evs
  induction evs with
  | nil => rfl
  | cons e rest ih =>
    simp only [runAttempt, finalJoinedText]
    by_cases hf : e.isFinal = true
    · simp [hf]
    · simp [hf, ih]

theorem reAttempt_snd_some (msg t : List Char) :
    ∀ evs : List Event, (reAttempt msg evs (some t)).2 = some t := by
  intro evs
  induction evs with
  | nil => rfl
  | cons e rest ih =>
    simp only [reAttempt]
    by_cases hf : e.isFinal = true
    · simp [hf]
    · simp [hf, ih]

theorem reAttempt_snd (msg : List Char) :
    ∀ evs : List Event, (reAttempt msg evs none).2 = collectedText evs := by
  intro evs
  induction evs with
  | nil => rfl
  | cons e rest ih =>
    by_cases hc : e.parts ≠ [] ∧ e.parts.filter (fun q => !q.isEmpty) ≠ []
    · by_cases hf : e.isFinal = true
      · simp only [reAttempt, collectedText, if_pos hc, hf, if_true]
      · simp only [reAttempt, collectedText, if_pos hc, hf, Bool.false_eq_true, if_false,
          reAttempt_snd_some]
    · by_cases hf : e.isFinal = true
      · simp only [reAttempt, collectedText, if_neg hc, hf, if_true]
      · simp only [reAttempt, collectedText, if_neg hc, hf, Bool.false_eq_true, if_false, ih]

theorem restStream_zero (cfg : AgentConfig) (ev : Nat → List Event) (attempt : Nat) :
    restStream cfg ev 0 attempt = ([Item.terminal apologyExhausted], 0) := rfl

theorem restStream_one_none (cfg : AgentConfig) (ev : Nat → List Event) (attempt : Nat)
    (h : (runAttempt processingMsgRestaurant (ev attempt)).2 = none) :
    restStream cfg ev (Nat.succ 0) attempt =
      (if isValidRest cfg apologyNoResponse then
        ((runAttempt processingMsgRestaurant (ev attempt)).1 ++
           [Item.terminal apologyNoResponse], 1)
      else
        ((runAttempt processingMsgRestaurant (ev attempt)).1 ++
           [Item.terminal apologyExhausted], 1)) := by
  rw [restStream.eq_3, h]
  rfl

theorem restStream_one_some (cfg : AgentConfig) (ev : Nat → List Event) (attempt : Nat)
    (r : List Char)
    (h : (runAttempt processingMsgRestaurant (ev attempt)).2 = some r) :
    restStream cfg ev (Nat.succ 0) attempt =
      (if isValidRest cfg r then
        ((runAttempt processingMsgRestaurant (ev attempt)).1 ++ [Item.terminal r], 1)
      else
        ((runAttempt processingMsgRestaurant (ev attempt)).1 ++
           [Item.terminal apologyExhausted], 1)) := by
  rw [restStream.eq_3, h]
  rfl

theorem restStream_two_none (cfg : AgentConfig) (ev : Nat → List Event) (attempt : Nat)
    (h : (runAttempt processingMsgRestaurant (ev attempt)).2 = none) :
    restStream cfg ev (Nat.succ (Nat.succ 0)) attempt =
      ((runAttempt processingMsgRestaurant (ev attempt)).1 ++
         (restStream cfg ev (Nat.succ 0) (attempt + 1)).1,
       (restStream cfg ev (Nat.succ 0) (attempt + 1)).2 + 1) := by
  rw [restStream.eq_2, h]

theorem restStream_two_some (cfg : AgentConfig) (ev : Nat → List Event) (attempt : Nat)
    (r : List Char)
    (h : (runAttempt processingMsgRestaurant (ev attempt)).2 = some r) :
    restStream cfg ev (Nat.succ (Nat.succ 0)) attempt =
      (if isValidRest cfg r then
        ((runAttempt processingMsgRestaurant (ev attempt)).1 ++ [Item.terminal r], 1)
      else
        ((runAttempt processingMsgRestaurant (ev attempt)).1 ++
           (restStream cfg ev (Nat.succ 0) (attempt + 1)).1,
         (restStream cfg ev (Nat.succ 0) (attempt + 1)).2 + 1)) := by
  rw [restStream.eq_2, h]

theorem reStream_zero (ev : Nat → List Event) (attempt : Nat) :
    reStream ev 0 attempt = ([Item.terminal apologyRealEstate], 0) := rfl

theorem reStream_some (ev : Nat → List Event) (rem attempt : Nat) (t : List Char)
    (h : (reAttempt processingMsgRealEstate (ev attempt) none).2 = some t) :
    reStream ev (rem + 1) attempt =
      (if t ≠ [] then
        ((reAttempt processingMsgRealEstate (ev attempt) none).1 ++ [Item.terminal t], 1)
      else
        ((reAttempt processingMsgRealEstate (ev attempt) none).1 ++
           (reStream ev rem (attempt + 1)).1,
         (reStream ev rem (attempt + 1)).2 + 1)) := by
  simp only [reStream, h]

theorem reStream_none (ev : Nat → List Event) (rem attempt : Nat)
    (h : (reAttempt processingMsgRealEstate (ev attempt) none).2 = none) :
    reStream ev (rem + 1) attempt =
      ((reAttempt processingMsgRealEstate (ev attempt) none).1 ++
         (reStream ev rem (attempt + 1)).1,
       (reStream ev rem (attempt + 1)).2 + 1) := by
  simp only [reStream, h]

theorem cleanFence_of_strip_nil (s : List Char) (h : stripWs s = []) :
    cleanFence s = [] := by
  unfold cleanFence
  rw [h]
  rfl

theorem validateUi_ok (parseOk schemaOk : List Char → Bool) (s pre suf : List Char)
    (hsplit : splitFirst delimiter s = some (pre, suf))
    (hcl : cleanFence suf ≠ [])
    (hp : parseOk (cleanFence suf) = true)
    (hs : schemaOk (cleanFence suf) = true) :
    validateUi parseOk schemaOk s = ValidationOutcome.ok := by
  have hstrip : ¬stripWs suf = [] := by
    intro h0
    exact hcl (cleanFence_of_strip_nil suf h0)
  simp only [validateUi, hsplit]
  rw [if_neg hstrip, if_neg hcl, hp, hs]
  simp

theorem validateUi_missing (parseOk schemaOk : List Char → Bool) (s : List Char)
    (h : containsSub delimiter s = false) :
    validateUi parseOk schemaOk s = ValidationOutcome.missingDelimiter := by
  have hnone : splitFirst delimiter s = none := by
    unfold containsSub at h
    exact Option.not_isSome_iff_eq_none.mp (by simp [h])
  simp only [validateUi, hnone]

theorem restStream_one_shape (cfg : AgentConfig) (ev : Nat → List Event) (attempt : Nat) :
    ∃ ps c, allProgress ps ∧
      (restStream cfg ev (Nat.succ 0) attempt).1 = ps ++ [Item.terminal c] := by
  cases h : (runAttempt processingMsgRestaurant (ev attempt)).2 with
  | none =>
    rw [restStream_one_none cfg ev attempt h]
    by_cases hv : isValidRest cfg apologyNoResponse = true
    · rw [if_pos hv]
      exact ⟨_, _, runAttempt_progress _ _, rfl⟩
    · rw [if_neg hv]
      exact ⟨_, _, runAttempt_progress _ _, rfl⟩
  | some r =>
    rw [restStream_one_some cfg ev attempt r h]
    by_cases hv : isValidRest cfg r = true
    · rw [if_pos hv]
      exact ⟨_, _, runAttempt_progress _ _, rfl⟩
    · rw [if_neg hv]
      exact ⟨_, _, runAttempt_progress _ _, rfl⟩

theorem restStream_two_shape (cfg : AgentConfig) (ev : Nat → List Event) (attempt : Nat) :
    ∃ ps c, allProgress ps ∧
      (restStream cfg ev (Nat.succ (Nat.succ 0)) attempt).1 = ps ++ [Item.terminal c] := by
  cases h : (runAttempt processingMsgRestaurant (ev attempt)).2 with
  | none =>
    rw [restStream_two_none cfg ev attempt h]
    obtain ⟨ps, c, hps, heq⟩ := restStream_one_shape cfg ev (attempt + 1)
    refine ⟨(runAttempt processingMsgRestaurant (ev attempt)).1 ++ ps, c,
      allProgress_append (runAttempt_progress _ _) hps, ?_⟩
    show (runAttempt processingMsgRestaurant (ev attempt)).1 ++
        (restStream cfg ev (Nat.succ 0) (attempt + 1)).1 = _
    rw [heq, List.append_assoc]
  | some r =>
    rw [restStream_two_some cfg ev attempt r h]
    by_cases hv : isValidRest cfg r = true
    · rw [if_pos hv]
      exact ⟨_, _, runAttempt_progress _ _, rfl⟩
    · rw [if_neg hv]
      obtain ⟨ps, c, hps, heq⟩ := restStream_one_shape cfg ev (attempt + 1)
      refine ⟨(runAttempt processingMsgRestaurant (ev attempt)).1 ++ ps, c,
        allProgress_append (runAttempt_progress _ _) hps, ?_⟩
      show (runAttempt processingMsgRestaurant (ev attempt)).1 ++
          (restStream cfg ev (Nat.succ 0) (attempt + 1)).1 = _
      rw [heq, List.append_assoc]

theorem restStream_one_count (cfg : AgentConfig) (ev : Nat → List Event) (attempt : Nat) :
    (restStream cfg ev (Nat.succ 0) attempt).2 = 1 := by
  cases h : (runAttempt processingMsgRestaurant (ev attempt)).2 with
  | none =>
    rw [restStream_one_none cfg ev attempt h]
    by_cases hv : isValidRest cfg apologyNoResponse = true
    · rw [if_pos hv]
    · rw [if_neg hv]
  | some r =>
    rw [restStream_one_some cfg ev attempt r h]
    by_cases hv : isValidRest cfg r = true
    · rw [if_pos hv]
    · rw [if_neg hv]

theorem restStream_two_count (cfg : AgentConfig) (ev : Nat → List Event) (attempt : Nat) :
    (restStream cfg ev (Nat.succ (Nat.succ 0)) attempt).2 ≤ 2 := by
  cases h : (runAttempt processingMsgRestaurant (ev attempt)).2 with
  | none =>
    rw [restStream_two_none cfg ev attempt h]
    show (restStream cfg ev (Nat.succ 0) (attempt + 1)).2 + 1 ≤ 2
    rw [restStream_one_count]
  | some r =>
    rw [restStream_two_some cfg ev attempt r h]
    by_cases hv : isValidRest cfg r = true
    · rw [if_pos hv]
      exact Nat.le_succ 1
    · rw [if_neg hv]
      show (restStream cfg ev (Nat.succ 0) (attempt + 1)).2 + 1 ≤ 2
      rw [restStream_one_count]

theorem reStream_one_shape (ev : Nat → List Event) (attempt : Nat) :
    ∃ ps c, allProgress ps ∧
      (reStream ev (Nat.succ 0) attempt).1 = ps ++ [Item.terminal c] := by
  cases h : (reAttempt processingMsgRealEstate (ev attempt) none).2 with
  | none =>
    rw [reStream_none ev 0 attempt h]
    exact ⟨_, _, reAttempt_progress _ _ _, rfl⟩
  | some t =>
    rw [reStream_some ev 0 attempt t h]
    by_cases ht : t ≠ []
    · rw [if_pos ht]
      exact ⟨_, _, reAttempt_progress _ _ _, rfl⟩
    · rw [if_neg ht]
      exact ⟨_, _, reAttempt_progress _ _ _, rfl⟩

theorem reStream_two_shape (ev : Nat → List Event) (attempt : Nat) :
    ∃ ps c, allProgress ps ∧
      (reStream ev (Nat.succ (Nat.succ 0)) attempt).1 = ps ++ [Item.terminal c] := by
  cases h : (reAttempt processingMsgRealEstate (ev attempt) none).2 with
  | none =>
    rw [reStream_none ev (Nat.succ 0) attempt h]
    obtain ⟨ps, c, hps, heq⟩ := reStream_one_shape ev (attempt + 1)
    refine ⟨(reAttempt processingMsgRealEstate (ev attempt) none).1 ++ ps, c,
      allProgress_append (reAttempt_progress _ _ _) hps, ?_⟩
    show (reAttempt processingMsgRealEstate (ev attempt) none).1 ++
        (reStream ev (Nat.succ 0) (attempt + 1)).1 = _
    rw [heq, List.append_assoc]
  | some t =>
    rw [reStream_some ev (Nat.succ 0) attempt t h]
    by_cases ht : t ≠ []
    · rw [if_pos ht]
      exact ⟨_, _, reAttempt_progress _ _ _, rfl⟩
    · rw [if_neg ht]
      obtain ⟨ps, c, hps, heq⟩ := reStream_one_shape ev (attempt + 1)
      refine ⟨(reAttempt processingMsgRealEstate (ev attempt) none).1 ++ ps, c,
        allProgress_append (reAttempt_progress _ _ _) hps, ?_⟩
      show (reAttempt processingMsgRealEstate (ev attempt) none).1 ++
          (reStream ev (Nat.succ 0) (attempt + 1)).1 = _
      rw [heq, List.append_assoc]

theorem reStream_one_count (ev : Nat → List Event) (attempt : Nat) :
    (reStream ev (Nat.succ 0) attempt).2 = 1 := by
  cases h : (reAttempt processingMsgRealEstate (ev attempt) none).2 with
  | none =>
    rw [reStream_none ev 0 attempt h]
    rfl
  | some t =>
    rw [reStream_some ev 0 attempt t h]
    by_cases ht : t ≠ []
    · rw [if_pos ht]
    · rw [if_neg ht]
      rfl

theorem reStream_two_count (ev : Nat → List Event) (attempt : Nat) :
    (reStream ev (Nat.succ (Nat.succ 0)) attempt).2 ≤ 2 := by
  cases h : (reAttempt processingMsgRealEstate (ev attempt) none).2 with
  | none =>
    rw [reStream_none ev (Nat.succ 0) attempt h]
    show (reStream ev (Nat.succ 0) (attempt + 1)).2 + 1 ≤ 2
    rw [reStream_one_count]
  | some t =>
    rw [reStream_some ev (Nat.succ 0) attempt t h]
    by_cases ht : t ≠ []
    · rw [if_pos ht]
      exact Nat.le_succ 1
    · rw [if_neg ht]
      show (reStream ev (Nat.succ 0) (attempt + 1)).2 + 1 ≤ 2
      rw [reStream_one_count]

/-- C1: for every call to the agent stream operation (any query, session id
and UI mode, for both agents), the sequence of yielded items is zero or
more progress items (`is_task_complete=false`), followed by exactly one
terminal item (`is_task_complete=true`) carrying text content, with nothing
yielded after it. -/
theorem claim1_stream_shape (cfg : AgentConfig) (ev : Nat → List Event) :
    (∃ ps c, allProgress ps ∧ restaurantStream cfg ev = ps ++ [Item.terminal c]) ∧
    (∃ qs d, allProgress qs ∧ realEstateStream cfg ev = qs ++ [Item.terminal d]) := by
  constructor
  · unfold restaurantStream
    by_cases hc : (cfg.useUi && !cfg.schemaLoaded) = true
    · rw [if_pos hc]
      exact ⟨[], configErrorMsg, allProgress_nil, rfl⟩
    · rw [if_neg hc]
      show ∃ ps c, allProgress ps ∧
        (restStream cfg ev (Nat.succ (Nat.succ 0)) 1).1 = ps ++ [Item.terminal c]
      exact restStream_two_shape cfg ev 1
  · unfold realEstateStream
    show ∃ qs d, allProgress qs ∧
      (reStream ev (Nat.succ (Nat.succ 0)) 1).1 = qs ++ [Item.terminal d]
    exact reStream_two_shape ev 1

/-- C2: for every call to either agent's stream operation, the retry loop
terminates and the model is invoked at most `max_retries + 1 = 2` times,
whatever the model's event streams are. -/
theorem claim2_retry_bound (cfg : AgentConfig) (ev : Nat → List Event) :
    restaurantInvocations cfg ev ≤ maxRetries + 1 ∧
    realEstateInvocations cfg ev ≤ maxRetries + 1 ∧ maxRetries + 1 = 2 := by
  refine ⟨?_, ?_, rfl⟩
  · unfold restaurantInvocations
    by_cases hc : (cfg.useUi && !cfg.schemaLoaded) = true
    · rw [if_pos hc]
      exact Nat.zero_le _
    · rw [if_neg hc]
      show (restStream cfg ev (Nat.succ (Nat.succ 0)) 1).2 ≤ 2
      exact restStream_two_count cfg ev 1
  · show (reStream ev (Nat.succ (Nat.succ 0)) 1).2 ≤ 2
    exact reStream_two_count ev 1

/-- C3: in UI mode with the schema loaded, when the model's first-attempt
final response contains the delimiter, has a non-empty JSON suffix after
code-fence stripping, parses as JSON and validates against the
array-wrapped schema, the stream yields its terminal success on the first
attempt with content equal to the full raw response, and the model is
invoked exactly once (no retry consumed). -/
theorem claim3_first_attempt_success (cfg : AgentConfig) (ev : Nat → List Event)
    (r pre suf : List Char)
    (hui : cfg.useUi = true)
    (hsl : cfg.schemaLoaded = true)
    (hresp : finalJoinedText (ev 1) = some r)
    (hsplit : splitFirst delimiter r = some (pre, suf))
    (hcl : cleanFence suf ≠ [])
    (hp : cfg.parseOk (cleanFence suf) = true)
    (hs : cfg.schemaOk (cleanFence suf) = true) :
    (∃ ps, allProgress ps ∧ restaurantStream cfg ev = ps ++ [Item.terminal r]) ∧
    restaurantInvocations cfg ev = 1 := by
  have hcond : (cfg.useUi && !cfg.schemaLoaded) = false := by
    rw [hui, hsl]
    rfl
  have hrun : (runAttempt processingMsgRestaurant (ev 1)).2 = some r := by
    rw [runAttempt_snd]
    exact hresp
  have hvalid : isValidRest cfg r = true := by
    unfold isValidRest
    rw [hui, validateUi_ok cfg.parseOk cfg.schemaOk r pre suf hsplit hcl hp hs]
    simp
  constructor
  · refine ⟨(runAttempt processingMsgRestaurant (ev 1)).1, runAttempt_progress _ _, ?_⟩
    unfold restaurantStream
    rw [hcond, if_neg Bool.false_ne_true]
    show (restStream cfg ev (Nat.succ (Nat.succ 0)) 1).1 = _
    rw [restStream_two_some cfg ev 1 r hrun, if_pos hvalid]
  · unfold restaurantInvocations
    rw [hcond, if_neg Bool.false_ne_true]
    show (restStream cfg ev (Nat.succ (Nat.succ 0)) 1).2 = 1
    rw [restStream_two_some cfg ev 1 r hrun, if_pos hvalid]

/-- A UI-mode configuration with loaded schema and all-accepting oracles,
used to instantiate hypotheses on concrete inputs. -/
def cfgUiAll : AgentConfig := ⟨true, true, fun _ => true, fun _ => true⟩

/-- A model behavior answering every attempt with one final event carrying
a well-formed delimiter-separated payload. -/
def evC3 : Nat → List Event := fun _ => [⟨true, ["hi---a2ui_JSON---[1]".toList]⟩]

/-- Witness for C3 at a concrete input. -/
theorem claim3_first_attempt_success_witness :
    (∃ ps, allProgress ps ∧
      restaurantStream cfgUiAll evC3 = ps ++ [Item.terminal "hi---a2ui_JSON---[1]".toList]) ∧
    restaurantInvocations cfgUiAll evC3 = 1 :=
  claim3_first_attempt_success cfgUiAll evC3 "hi---a2ui_JSON---[1]".toList
    "hi".toList "[1]".toList rfl rfl (by decide) (by decide) (by decide) rfl rfl

/-- C4: when the model produces no final response on any attempt (and the
schema is loaded whenever UI mode is on, so the retry loop actually runs),
the restaurant stream's terminal item carries a fixed apology string (the
interface apology in UI mode, the processing apology in text mode), and
the number of model invocations equals the attempt budget
`max_retries + 1`. -/
theorem claim4_never_final_apology (cfg : AgentConfig) (ev : Nat → List Event)
    (hcfg : cfg.useUi = true → cfg.schemaLoaded = true)
    (hnone : ∀ n, finalJoinedText (ev n) = none) :
    (∃ ps, allProgress ps ∧ restaurantStream cfg ev =
        ps ++ [Item.terminal (if cfg.useUi then apologyExhausted else apologyNoResponse)]) ∧
    restaurantInvocations cfg ev = maxRetries + 1 := by
  have hrun : ∀ n, (runAttempt processingMsgRestaurant (ev n)).2 = none := by
    intro n
    rw [runAttempt_snd]
    exact hnone n
  have hcond : (cfg.useUi && !cfg.schemaLoaded) = false := by
    cases hu : cfg.useUi with
    | false => rfl
    | true => rw [hcfg hu]; rfl
  cases hu : cfg.useUi with
  | true =>
    have hvalid : isValidRest cfg apologyNoResponse = false := by
      unfold isValidRest
      rw [hu, validateUi_missing cfg.parseOk cfg.schemaOk apologyNoResponse (by decide)]
      simp
    have hnv : ¬isValidRest cfg apologyNoResponse = true := by
      rw [hvalid]
      exact Bool.false_ne_true
    constructor
    · refine ⟨(runAttempt processingMsgRestaurant (ev 1)).1 ++
        (runAttempt processingMsgRestaurant (ev (1 + 1))).1,
        allProgress_append (runAttempt_progress _ _) (runAttempt_progress _ _), ?_⟩
      unfold restaurantStream
      rw [hcond, if_neg Bool.false_ne_true]
      show (restStream cfg ev (Nat.succ (Nat.succ 0)) 1).1 = _
      rw [restStream_two_none cfg ev 1 (hrun 1)]
      show (runAttempt processingMsgRestaurant (ev 1)).1 ++
          (restStream cfg ev (Nat.succ 0) (1 + 1)).1 = _
      rw [restStream_one_none cfg ev (1 + 1) (hrun (1 + 1)), if_neg hnv,
        if_pos rfl, List.append_assoc]
    · unfold restaurantInvocations
      rw [hcond, if_neg Bool.false_ne_true]
      show (restStream cfg ev (Nat.succ (Nat.succ 0)) 1).2 = maxRetries + 1
      rw [restStream_two_none cfg ev 1 (hrun 1)]
      show (restStream cfg ev (Nat.succ 0) (1 + 1)).2 + 1 = maxRetries + 1
      rw [restStream_one_none cfg ev (1 + 1) (hrun (1 + 1)), if_neg hnv]
      rfl
  | false =>
    have hvalid : isValidRest cfg apologyNoResponse = true := by
      unfold isValidRest
      rw [hu]
      rfl
    constructor
    · refine ⟨(runAttempt processingMsgRestaurant (ev 1)).1 ++
        (runAttempt processingMsgRestaurant (ev (1 + 1))).1,
        allProgress_append (runAttempt_progress _ _) (runAttempt_progress _ _), ?_⟩
      unfold restaurantStream
      rw [hcond, if_neg Bool.false_ne_true]
      show (restStream cfg ev (Nat.succ (Nat.succ 0)) 1).1 = _
      rw [restStream_two_none cfg ev 1 (hrun 1)]
      show (runAttempt processingMsgRestaurant (ev 1)).1 ++
          (restStream cfg ev (Nat.succ 0) (1 + 1)).1 = _
      rw [restStream_one_none cfg ev (1 + 1) (hrun (1 + 1)), if_pos hvalid,
        if_neg Bool.false_ne_true, List.append_assoc]
    · unfold restaurantInvocations
      rw [hcond, if_neg Bool.false_ne_true]
      show (restStream cfg ev (Nat.succ (Nat.succ 0)) 1).2 = maxRetries + 1
      rw [restStream_two_none cfg ev 1 (hrun 1)]
      show (restStream cfg ev (Nat.succ 0) (1 + 1)).2 + 1 = maxRetries + 1
      rw [restStream_one_none cfg ev (1 + 1) (hrun (1 + 1)), if_pos hvalid]
      rfl

/-- A model behavior yielding one non-final event and never a final
response. -/
def evNeverFinal : Nat → List Event := fun _ => [⟨false, []⟩]

/-- Witness for C4 at a concrete input (UI mode, schema loaded). -/
theorem claim4_never_final_apology_witness :
    (∃ ps, allProgress ps ∧ restaurantStream cfgUiAll evNeverFinal =
        ps ++ [Item.terminal (if cfgUiAll.useUi then apologyExhausted else apologyNoResponse)]) ∧
    restaurantInvocations cfgUiAll evNeverFinal = maxRetries + 1 :=
  claim4_never_final_apology cfgUiAll evNeverFinal (fun _ => rfl) (fun _ => rfl)

/-- C8: for every input text that does not contain the delimiter, the
splitter/validation pipeline yields the `missingDelimiter` outcome, and
running it again on the same unchanged text yields the same outcome (it is
a pure function of its input). -/
theorem claim8_splitter_deterministic (parseOk schemaOk : List Char → Bool) (s : List Char)
    (h : containsSub delimiter s = false) :
    validateUi parseOk schemaOk s = ValidationOutcome.missingDelimiter ∧
    validateUi parseOk schemaOk s = ValidationOutcome.missingDelimiter := by
  have hm := validateUi_missing parseOk schemaOk s h
  exact ⟨hm, hm⟩

/-- Witness for C8 on a concrete delimiter-free text. -/
theorem claim8_splitter_deterministic_witness :
    containsSub delimiter "hello".toList = false ∧
    (validateUi (fun _ => true) (fun _ => true) "hello".toList =
        ValidationOutcome.missingDelimiter ∧
      validateUi (fun _ => true) (fun _ => true) "hello".toList =
        ValidationOutcome.missingDelimiter) :=
  ⟨by decide,
    claim8_splitter_deterministic (fun _ => true) (fun _ => true) "hello".toList (by decide)⟩

/-- C6: for every input whose bracket-scanned slice does not parse as JSON,
the permissive extractor propagates the parse error to its caller (the
fallback block builds nothing and re-raises), rather than producing any
parts. -/
theorem claim6_permissive_fails_loudly (parse : List Char → Option PyJson) (s : List Char)
    (h : parse (bracketSlice (stripWs s)) = none) :
    extractA2ui parse s = Except.error () := by
  simp only [extractA2ui, h]

/-- Witness for C6 on a concrete unparseable input. -/
theorem claim6_permissive_fails_loudly_witness :
    extractA2ui (fun _ => none) "xx".toList = Except.error () :=
  claim6_permissive_fails_loudly (fun _ => none) "xx".toList rfl

/-- C10: the bracket-scanning slice computation is total: the start index
defaults to 0 when no opening bracket or brace occurs, the end index
defaults to the string's length when no closing one occurs, the slice is
always a contiguous substring of the input, and in the no-bracket case it
is the whole string. -/
theorem claim10_bracket_slice_total (s : List Char) :
    (findChar '[' s = none ∧ findChar '{' s = none → firstItem s = 0) ∧
    (rfindChar ']' s = none ∧ rfindChar '}' s = none → lastItem s = s.length) ∧
    (∃ a b, s = a ++ bracketSlice s ++ b) ∧
    (findChar '[' s = none ∧ findChar '{' s = none ∧
      rfindChar ']' s = none ∧ rfindChar '}' s = none → bracketSlice s = s) := by
  refine ⟨?_, ?_, ?_, ?_⟩
  · rintro ⟨h1, h2⟩
    unfold firstItem
    rw [h1, h2]
  · rintro ⟨h1, h2⟩
    unfold lastItem
    rw [h1, h2]
  · refine ⟨(s.take (lastItem s + 1)).take (firstItem s), s.drop (lastItem s + 1), ?_⟩
    unfold bracketSlice
    rw [List.take_append_drop, List.take_append_drop]
  · rintro ⟨h1, h2, h3, h4⟩
    have hf : firstItem s = 0 := by
      unfold firstItem
      rw [h1, h2]
    have hl : lastItem s = s.length := by
      unfold lastItem
      rw [h3, h4]
    unfold bracketSlice
    rw [hf, hl, List.drop_zero]
    exact List.take_of_length_le (Nat.le_succ _)

/-- Witness for C10 on a concrete bracket-free text. -/
theorem claim10_bracket_slice_total_witness :
    firstItem "ab".toList = 0 ∧ lastItem "ab".toList = "ab".toList.length ∧
    bracketSlice "ab".toList = "ab".toList :=
  ⟨(claim10_bracket_slice_total "ab".toList).1 ⟨by decide, by decide⟩,
   (claim10_bracket_slice_total "ab".toList).2.1 ⟨by decide, by decide⟩,
   (claim10_bracket_slice_total "ab".toList).2.2.2
     ⟨by decide, by decide, by decide, by decide⟩⟩

theorem joinNL_ne_nil : ∀ ts : List (List Char), (∀ x ∈ ts, x ≠ []) → ts ≠ [] →
    joinNL ts ≠ [] := by
  intro ts hall hne
  match ts with
  | [] => exact absurd rfl hne
  | [x] => exact hall x (List.mem_singleton.mpr rfl)
  | x :: u :: rest =>
    show x ++ '\n' :: joinNL (u :: rest) ≠ []
    intro hEq
    exact List.cons_ne_nil _ _ (List.append_eq_nil.mp hEq).2

theorem collectedText_ne_nil : ∀ (evs : List Event) (t : List Char),
    collectedText evs = some t → t ≠ [] := by
  intro evs
  induction evs with
  | nil =>
    intro t h
    cases h
  | cons e rest ih =>
    intro t h
    by_cases hc : e.parts ≠ [] ∧ e.parts.filter (fun q => !q.isEmpty) ≠ []
    · simp only [collectedText, if_pos hc] at h
      have ht : t = joinNL (e.parts.filter (fun q => !q.isEmpty)) :=
        (Option.some.inj h).symm
      subst ht
      refine joinNL_ne_nil _ ?_ hc.2
      intro x hx hxnil
      subst hxnil
      have hp := List.of_mem_filter hx
      simp at hp
    · simp only [collectedText, if_neg hc] at h
      by_cases hf : e.isFinal = true
      · rw [if_pos hf] at h
        cases h
      · rw [if_neg hf] at h
        exact ih t h

/-- A UI-mode configuration whose schema failed to load at startup. -/
def cfgUiNoSchema : AgentConfig := ⟨true, false, fun _ => false, fun _ => false⟩

/-- A model behavior answering every attempt with one final event carrying
the text `hi`. -/
def evOneFinalHi : Nat → List Event := fun _ => [⟨true, ["hi".toList]⟩]

/-- C7 counterexample: in UI mode with the stored schema object `None`, the
real-estate agent's stream does NOT refuse: it invokes the model once and
yields the model's content as its terminal item, which is not the fixed
internal-error message, so the claim fails on `RealEstateAgent.stream`. -/
theorem claim7_counterexample_real_estate :
    realEstateStream cfgUiNoSchema evOneFinalHi = [Item.terminal "hi".toList] ∧
    realEstateInvocations cfgUiNoSchema evOneFinalHi = 1 ∧
    "hi".toList ≠ configErrorMsg := by
  decide

/-- C7 (amended): the RESTAURANT agent's stream, called in UI mode after
the schema failed to parse at startup, refuses immediately with a single
terminal carrying the fixed internal-error message and performs no model
invocation; the real-estate agent's stream has no such check — its result
is independent of the configuration (schema state included). -/
theorem claim7_config_error_refusal (cfg : AgentConfig) (ev : Nat → List Event)
    (hui : cfg.useUi = true) (hsl : cfg.schemaLoaded = false) :
    (restaurantStream cfg ev = [Item.terminal configErrorMsg] ∧
      restaurantInvocations cfg ev = 0) ∧
    (∀ cfg' : AgentConfig, realEstateStream cfg ev = realEstateStream cfg' ev ∧
      realEstateInvocations cfg ev = realEstateInvocations cfg' ev) := by
  have hcond : (cfg.useUi && !cfg.schemaLoaded) = true := by
    rw [hui, hsl]
    rfl
  refine ⟨⟨?_, ?_⟩, fun cfg' => ⟨rfl, rfl⟩⟩
  · unfold restaurantStream
    rw [hcond, if_pos rfl]
  · unfold restaurantInvocations
    rw [hcond, if_pos rfl]

/-- Witness for the amended C7 at a concrete configuration. -/
theorem claim7_config_error_refusal_witness :
    (restaurantStream cfgUiNoSchema evOneFinalHi = [Item.terminal configErrorMsg] ∧
      restaurantInvocations cfgUiNoSchema evOneFinalHi = 0) ∧
    (∀ cfg' : AgentConfig,
      realEstateStream cfgUiNoSchema evOneFinalHi = realEstateStream cfg' evOneFinalHi ∧
      realEstateInvocations cfgUiNoSchema evOneFinalHi =
        realEstateInvocations cfg' evOneFinalHi) :=
  claim7_config_error_refusal cfgUiNoSchema evOneFinalHi rfl rfl

/-- C9: whenever the first attempt's event stream (scanned up to the first
final event, where the loop stops consuming) contains a text-bearing
event, `RealEstateAgent.stream` yields terminal success with that text on
the first attempt (one model invocation), and the result is independent of
the configuration: no delimiter check, JSON parse, schema validation or
configuration-error refusal is performed. -/
theorem claim9_real_estate_first_text (cfg cfg' : AgentConfig) (ev : Nat → List Event)
    (t : List Char)
    (h : collectedText (ev 1) = some t) :
    (∃ qs, allProgress qs ∧ realEstateStream cfg ev = qs ++ [Item.terminal t]) ∧
    realEstateInvocations cfg ev = 1 ∧
    realEstateStream cfg ev = realEstateStream cfg' ev ∧
    realEstateInvocations cfg ev = realEstateInvocations cfg' ev := by
  have hatt : (reAttempt processingMsgRealEstate (ev 1) none).2 = some t := by
    rw [reAttempt_snd]
    exact h
  have ht : t ≠ [] := collectedText_ne_nil (ev 1) t h
  refine ⟨⟨(reAttempt processingMsgRealEstate (ev 1) none).1,
    reAttempt_progress _ _ _, ?_⟩, ?_, rfl, rfl⟩
  · unfold realEstateStream
    show (reStream ev (Nat.succ (Nat.succ 0)) 1).1 = _
    rw [reStream_some ev (Nat.succ 0) 1 t hatt, if_pos ht]
  · unfold realEstateInvocations
    show (reStream ev (Nat.succ (Nat.succ 0)) 1).2 = 1
    rw [reStream_some ev (Nat.succ 0) 1 t hatt, if_pos ht]

/-- Witness for C9 at a concrete input. -/
theorem claim9_real_estate_first_text_witness :
    (∃ qs, allProgress qs ∧
      realEstateStream cfgUiAll evOneFinalHi = qs ++ [Item.terminal "hi".toList]) ∧
    realEstateInvocations cfgUiAll evOneFinalHi = 1 ∧
    realEstateStream cfgUiAll evOneFinalHi = realEstateStream cfgUiNoSchema evOneFinalHi ∧
    realEstateInvocations cfgUiAll evOneFinalHi =
      realEstateInvocations cfgUiNoSchema evOneFinalHi :=
  claim9_real_estate_first_text cfgUiAll cfgUiNoSchema evOneFinalHi "hi".toList (by decide)

/-- A text-mode configuration with loaded schema. -/
def cfgTextAll : AgentConfig := ⟨false, true, fun _ => true, fun _ => true⟩

/-- A model behavior whose first event is a non-final event with text `A`
and whose final response carries the different text `B`. -/
def evIntermediateText : Nat → List Event :=
  fun _ => [⟨false, ["A".toList]⟩, ⟨true, ["B".toList]⟩]

/-- C5 counterexample: with UI mode off, the real-estate agent's terminal
content is the text of the first text-bearing event (`A`), not the model's
raw final response text (`B`), so "content equals the model's raw final
response text" fails on `RealEstateAgent.stream`. -/
theorem claim5_counterexample_real_estate :
    realEstateStream cfgTextAll evIntermediateText =
      [Item.progress processingMsgRealEstate, Item.terminal "A".toList] ∧
    finalJoinedText (evIntermediateText 1) = some "B".toList ∧
    ("A".toList : List Char) ≠ "B".toList := by
  decide

/-- C5 (amended): with UI mode off and the model producing a response on
the first attempt, each agent yields exactly one terminal success: the
restaurant terminal's content equals the model's raw final response text,
while the real-estate terminal's content equals the text of the first
text-bearing event of the attempt, which may precede the final response. -/
theorem claim5_text_mode_passthrough (cfg : AgentConfig) (ev : Nat → List Event)
    (t u : List Char)
    (hui : cfg.useUi = false)
    (hrest : finalJoinedText (ev 1) = some t)
    (hre : collectedText (ev 1) = some u) :
    (∃ ps, allProgress ps ∧ restaurantStream cfg ev = ps ++ [Item.terminal t]) ∧
    (∃ qs, allProgress qs ∧ realEstateStream cfg ev = qs ++ [Item.terminal u]) := by
  have hcond : (cfg.useUi && !cfg.schemaLoaded) = false := by
    rw [hui]
    rfl
  have hvalid : isValidRest cfg t = true := by
    unfold isValidRest
    rw [hui]
    rfl
  have hrun : (runAttempt processingMsgRestaurant (ev 1)).2 = some t := by
    rw [runAttempt_snd]
    exact hrest
  have hatt : (reAttempt processingMsgRealEstate (ev 1) none).2 = some u := by
    rw [reAttempt_snd]
    exact hre
  have hune : u ≠ [] := collectedText_ne_nil (ev 1) u hre
  constructor
  · refine ⟨(runAttempt processingMsgRestaurant (ev 1)).1, runAttempt_progress _ _, ?_⟩
    unfold restaurantStream
    rw [hcond, if_neg Bool.false_ne_true]
    show (restStream cfg ev (Nat.succ (Nat.succ 0)) 1).1 = _
    rw [restStream_two_some cfg ev 1 t hrun, if_pos hvalid]
  · refine ⟨(reAttempt processingMsgRealEstate (ev 1) none).1,
      reAttempt_progress _ _ _, ?_⟩
    unfold realEstateStream
    show (reStream ev (Nat.succ (Nat.succ 0)) 1).1 = _
    rw [reStream_some ev (Nat.succ 0) 1 u hatt, if_pos hune]

/-- Witness for the amended C5 at a concrete input. -/
theorem claim5_text_mode_passthrough_witness :
    (∃ ps, allProgress ps ∧
      restaurantStream cfgTextAll evOneFinalHi = ps ++ [Item.terminal "hi".toList]) ∧
    (∃ qs, allProgress qs ∧
      realEstateStream cfgTextAll evOneFinalHi = qs ++ [Item.terminal "hi".toList]) :=
  claim5_text_mode_passthrough cfgTextAll evOneFinalHi "hi".toList "hi".toList
    rfl (by decide) (by decide)
